import Mathlib

/-!
Verification development for the `data-automation` repository.

The Python sources are shallowly embedded as Lean definitions:

* `pocket_to_csv.py` — the Pocket exporter: CSV store rows (`PRow`),
  the insertion-ordered dictionary semantics of Python `dict`
  (`dictInsert` / `mergeByKey`), `get_existing_items`, `export_to_csv`,
  `clean_text`, `format_item`, the paginated `fetch_loop`, the CSV field
  writer/reader pair, and the `run` driver (`pocket_run`).
* `dropbox_takeout_to_csv.py` — `find_latest_takeout`, `takeout_main`,
  `extract_video_id`, `determine_source`, and a file-system state model
  of `process_youtube_history`.
* `pocket_tagger.py` — `find_matching_tags` with the word-boundary
  regex semantics of `re.search` on a literal pattern.
* `untag_pocket.py` — `clean_and_unfavorite_items`.
* `yt_history_fetch_metadata.py` — `YouTubeMetadataFetcher.process_history`.
-/

namespace DataAutomation

/-! ## Insertion-ordered dictionaries (Python `dict` semantics) -/

section Dict

variable {α : Type}

/-- Python dict assignment `d[k] = v`: if the key is present its value is
replaced in place (insertion position preserved), otherwise the binding is
appended at the end. -/
def dictInsert : List (String × α) → String → α → List (String × α)
  | [], k, v => [(k, v)]
  | (k₁, v₁) :: t, k, v =>
      if k₁ = k then (k₁, v) :: t else (k₁, v₁) :: dictInsert t k v

/-- Python dict lookup `d[k]` (as an `Option`). -/
def dictLookup (k : String) : List (String × α) → Option α
  | [] => none
  | (k₁, v₁) :: t => if k₁ = k then some v₁ else dictLookup k t

/-- The keys of a dictionary, in insertion order. -/
def dictKeys (d : List (String × α)) : List String := d.map Prod.fst

/-- Folding a list of records into a dictionary keyed by `key`, as in
`for item in items: existing_items[item['Item ID']] = item`. -/
def mergeByKey (key : α → String) (d : List (String × α)) (items : List α) :
    List (String × α) :=
  items.foldl (fun d r => dictInsert d (key r) r) d

/-- Every binding's key is the designated key field of its value. -/
def keyedBy (key : α → String) (d : List (String × α)) : Prop :=
  ∀ p ∈ d, p.1 = key p.2

theorem dictKeys_dictInsert (d : List (String × α)) (k : String) (v : α) :
    dictKeys (dictInsert d k v) =
      if k ∈ dictKeys d then dictKeys d else dictKeys d ++ [k] := by
  induction d with
  | nil => simp [dictInsert, dictKeys]
  | cons p t ih =>
      obtain ⟨k₁, v₁⟩ := p
      by_cases h : k₁ = k
      · subst h
        simp [dictInsert, dictKeys]
      · simp only [dictInsert, if_neg h, dictKeys, List.map_cons] at ih ⊢
        rw [ih]
        by_cases hk : k ∈ List.map Prod.fst t
        · simp [List.mem_cons, hk]
        · simp [List.mem_cons, hk, Ne.symm h]

theorem nodup_dictKeys_dictInsert {d : List (String × α)} (k : String) (v : α)
    (h : (dictKeys d).Nodup) : (dictKeys (dictInsert d k v)).Nodup := by
  rw [dictKeys_dictInsert]
  by_cases hk : k ∈ dictKeys d
  · simpa [hk] using h
  · simp only [hk, if_false]
    exact List.Nodup.append h (List.nodup_singleton k) (by simpa using hk)

theorem keyedBy_dictInsert {key : α → String} {d : List (String × α)} {v : α}
    (h : keyedBy key d) : keyedBy key (dictInsert d (key v) v) := by
  induction d with
  | nil =>
      intro p hp
      simp only [dictInsert, List.mem_singleton] at hp
      subst hp; rfl
  | cons q t ih =>
      obtain ⟨k₁, v₁⟩ := q
      have hq : k₁ = key v₁ := h ⟨k₁, v₁⟩ (by simp)
      have ht : keyedBy key t := fun p hp => h p (List.mem_cons_of_mem _ hp)
      by_cases hk : k₁ = key v
      · intro p hp
        simp only [dictInsert, if_pos hk, List.mem_cons] at hp
        rcases hp with rfl | hp
        · exact hk
        · exact ht p hp
      · intro p hp
        simp only [dictInsert, if_neg hk, List.mem_cons] at hp
        rcases hp with rfl | hp
        · exact hq
        · exact ih ht p hp

theorem dictLookup_dictInsert_self (d : List (String × α)) (k : String) (v : α) :
    dictLookup k (dictInsert d k v) = some v := by
  induction d with
  | nil => simp [dictInsert, dictLookup]
  | cons p t ih =>
      obtain ⟨k₁, v₁⟩ := p
      by_cases h : k₁ = k
      · simp [dictInsert, dictLookup, h]
      · simp [dictInsert, dictLookup, h, ih]

theorem dictLookup_dictInsert_ne (d : List (String × α)) {k₁ k : String} (v : α)
    (h : k₁ ≠ k) : dictLookup k₁ (dictInsert d k v) = dictLookup k₁ d := by
  induction d with
  | nil => simp [dictInsert, dictLookup, Ne.symm h]
  | cons p t ih =>
      obtain ⟨k₂, v₂⟩ := p
      by_cases h₂ : k₂ = k
      · subst h₂
        simp [dictInsert, dictLookup, Ne.symm h]
      · by_cases h₁ : k₂ = k₁
        · subst h₁
          simp [dictInsert, dictLookup, h₂]
        · simp [dictInsert, dictLookup, h₁, h₂, ih]

theorem dictInsert_of_not_mem {d : List (String × α)} {k : String} (v : α)
    (h : k ∉ dictKeys d) : dictInsert d k v = d ++ [(k, v)] := by
  induction d with
  | nil => simp [dictInsert]
  | cons p t ih =>
      obtain ⟨k₁, v₁⟩ := p
      simp only [dictKeys, List.map_cons, List.mem_cons] at h
      push_neg at h
      simp [dictInsert, Ne.symm h.1, ih (by simpa [dictKeys] using h.2)]

/-- The last record in `items` whose key field is `k`, if any.  With Python
dict update semantics the last write for a key wins. -/
def lastWrite (key : α → String) (k : String) (items : List α) : Option α :=
  (items.filter (fun r => key r = k)).getLast?

theorem mergeByKey_cons (key : α → String) (d : List (String × α)) (r : α)
    (rs : List α) :
    mergeByKey key d (r :: rs) = mergeByKey key (dictInsert d (key r) r) rs := rfl

theorem dictLookup_mergeByKey (key : α → String) (d : List (String × α))
    (items : List α) (k : String) :
    dictLookup k (mergeByKey key d items) =
      (lastWrite key k items).or (dictLookup k d) := by
  induction items generalizing d with
  | nil => simp [mergeByKey, lastWrite, Option.or]
  | cons r rs ih =>
      rw [mergeByKey_cons, ih]
      by_cases h : key r = k
      · have h₁ : dictLookup k (dictInsert d (key r) r) = some r := by
          rw [h]; exact dictLookup_dictInsert_self d k r
        have h₂ : lastWrite key k (r :: rs) =
            (lastWrite key k rs).or (some r) := by
          have : r :: rs = [r] ++ rs := rfl
          simp only [lastWrite, this, List.filter_append, List.getLast?_append]
          simp [h]
        rw [h₁, h₂, Option.or_assoc]
        simp
      · have h₁ : dictLookup k (dictInsert d (key r) r) = dictLookup k d :=
          dictLookup_dictInsert_ne d r (fun hc => h hc.symm)
        have h₂ : lastWrite key k (r :: rs) = lastWrite key k rs := by
          simp [lastWrite, h]
        rw [h₁, h₂]

theorem keyedBy_mergeByKey (key : α → String) {d : List (String × α)}
    (h : keyedBy key d) (items : List α) :
    keyedBy key (mergeByKey key d items) := by
  induction items generalizing d with
  | nil => exact h
  | cons r rs ih => exact ih (keyedBy_dictInsert h)

theorem nodup_dictKeys_mergeByKey (key : α → String) {d : List (String × α)}
    (h : (dictKeys d).Nodup) (items : List α) :
    (dictKeys (mergeByKey key d items)).Nodup := by
  induction items generalizing d with
  | nil => exact h
  | cons r rs ih => exact ih (nodup_dictKeys_dictInsert _ _ h)

theorem filter_map_snd_eq_toList (key : α → String) {d : List (String × α)}
    (hnd : (dictKeys d).Nodup) (hk : keyedBy key d) (k : String) :
    ((d.map Prod.snd).filter (fun v => key v = k)) = (dictLookup k d).toList := by
  induction d with
  | nil => simp [dictLookup]
  | cons p t ih =>
      obtain ⟨k₁, v₁⟩ := p
      have hk₁ : k₁ = key v₁ := hk ⟨k₁, v₁⟩ (by simp)
      have hmem : k₁ ∉ dictKeys t := by
        simp only [dictKeys, List.map_cons, List.nodup_cons] at hnd
        exact hnd.1
      have hnd' : (dictKeys t).Nodup := by
        simp only [dictKeys, List.map_cons, List.nodup_cons] at hnd
        exact hnd.2
      have hkt : keyedBy key t := fun p hp => hk p (List.mem_cons_of_mem _ hp)
      by_cases h : k₁ = k
      · subst h
        have hnil : (t.map Prod.snd).filter (fun v => key v = k₁) = [] := by
          rw [List.filter_eq_nil_iff]
          intro v hv
          obtain ⟨p, hp, rfl⟩ := List.mem_map.mp hv
          have hpk : p.1 = key p.2 := hkt p hp
          simp only [decide_eq_true_eq]
          intro hc
          exact hmem (by rw [← hc, ← hpk]; exact List.mem_map_of_mem Prod.fst hp)
        have hstep : ((((k₁, v₁) :: t).map Prod.snd).filter (fun v => key v = k₁)) =
            v₁ :: ((t.map Prod.snd).filter (fun v => key v = k₁)) := by
          simp [List.filter_cons, hk₁.symm]
        rw [hstep, hnil]
        simp [dictLookup]
      · have hhead : ¬ (key v₁ = k) := by rw [← hk₁]; exact h
        simp [dictLookup, h, hhead, ih hnd' hkt]

theorem mergeByKey_of_fresh (key : α → String) {d : List (String × α)}
    {items : List α} (hf : ∀ r ∈ items, key r ∉ dictKeys d)
    (hnd : (items.map key).Nodup) :
    mergeByKey key d items = d ++ items.map (fun r => (key r, r)) := by
  induction items generalizing d with
  | nil => simp [mergeByKey]
  | cons r rs ih =>
      rw [mergeByKey_cons, dictInsert_of_not_mem r (hf r (by simp))]
      simp only [List.map_cons, List.nodup_cons] at hnd
      have hf' : ∀ r' ∈ rs, key r' ∉ dictKeys (d ++ [(key r, r)]) := by
        intro r' hr'
        simp only [dictKeys, List.map_append, List.mem_append, List.map_cons,
          List.map_nil, List.mem_singleton]
        push_neg
        refine ⟨hf r' (List.mem_cons_of_mem _ hr'), ?_⟩
        intro hc
        exact hnd.1 (hc ▸ List.mem_map_of_mem key hr')
      rw [ih hf' hnd.2, List.append_assoc]
      rfl

theorem length_filter_key_le_one (key : α → String) {items : List α}
    (hnd : (items.map key).Nodup) (k : String) :
    (items.filter (fun r => key r = k)).length ≤ 1 := by
  induction items with
  | nil => simp
  | cons r rs ih =>
      simp only [List.map_cons, List.nodup_cons] at hnd
      by_cases h : key r = k
      · have hnil : rs.filter (fun r => key r = k) = [] := by
          rw [List.filter_eq_nil_iff]
          intro x hx
          simp only [decide_eq_true_eq]
          intro hc
          exact hnd.1 (by rw [h, ← hc]; exact List.mem_map_of_mem key hx)
        simp [h, hnil]
      · simpa [h] using ih hnd.2

theorem eq_of_perm_of_length_le_one {β : Type} {l l' : List β}
    (hp : l.Perm l') (h : l.length ≤ 1) : l = l' := by
  match l, h with
  | [], _ =>
      rw [List.Perm.eq_nil hp.symm]
  | [a], _ =>
      rw [List.singleton_perm.mp hp]
  | a :: b :: t, h => simp at h

end Dict

/-! ## Pocket CSV store (`pocket_to_csv.py`) -/

/-- One row of the Pocket CSV store, with the 18 columns written by
`export_to_csv` (all values are strings, as `format_item` coerces every value
with `str`). -/
structure PRow where
  itemId : String
  resolvedId : String
  givenUrl : String
  givenTitle : String
  favorite : String
  status : String
  resolvedTitle : String
  resolvedUrl : String
  isArticle : String
  hasVideo : String
  isIndex : String
  wordCount : String
  listenDurationEstimate : String
  timeAdded : String
  timeUpdated : String
  timeRead : String
  timeFavorited : String
  tags : String
deriving DecidableEq, Repr

/-- `PocketExporter.get_existing_items`: read the store's rows into a
dictionary keyed by the `Item ID` column (`{row['Item ID']: row for row in
reader}`; a dict comprehension has the same last-write-wins, insertion-ordered
semantics as repeated assignment). -/
def get_existing_items (rows : List PRow) : List (String × PRow) :=
  mergeByKey PRow.itemId [] rows

/-- `PocketExporter.export_to_csv`: load the existing rows keyed by `Item ID`,
overlay each new item by its `Item ID`, and write out the dictionary's values
in order (the temporary-file/atomic-rename mechanics do not affect the
resulting row sequence). -/
def export_to_csv (rows items : List PRow) : List PRow :=
  (mergeByKey PRow.itemId (get_existing_items rows) items).map Prod.snd

theorem keyedBy_get_existing_items (rows : List PRow) :
    keyedBy PRow.itemId (get_existing_items rows) :=
  keyedBy_mergeByKey _ (fun p hp => absurd hp (List.not_mem_nil p)) rows

theorem nodup_get_existing_items (rows : List PRow) :
    (dictKeys (get_existing_items rows)).Nodup :=
  nodup_dictKeys_mergeByKey _ (by simp [dictKeys]) rows

theorem export_to_csv_filter (rows items : List PRow) (k : String) :
    (export_to_csv rows items).filter (fun r => r.itemId = k) =
      (dictLookup k (mergeByKey PRow.itemId (get_existing_items rows) items)).toList :=
  filter_map_snd_eq_toList PRow.itemId
    (nodup_dictKeys_mergeByKey _ (nodup_get_existing_items rows) items)
    (keyedBy_mergeByKey _ (keyedBy_get_existing_items rows) items) k

theorem nodup_export_to_csv_keys (rows items : List PRow) :
    ((export_to_csv rows items).map PRow.itemId).Nodup := by
  unfold export_to_csv
  rw [List.map_map]
  have hkeyed := keyedBy_mergeByKey PRow.itemId (keyedBy_get_existing_items rows) items
  have hnd := nodup_dictKeys_mergeByKey PRow.itemId (nodup_get_existing_items rows) items
  have : (mergeByKey PRow.itemId (get_existing_items rows) items).map
      (PRow.itemId ∘ Prod.snd) =
      (mergeByKey PRow.itemId (get_existing_items rows) items).map Prod.fst := by
    refine List.map_congr_left ?_
    intro p hp
    exact (hkeyed p hp).symm
  rw [this]
  exact hnd

/-- A Pocket row with the given `Item ID` and `Given Title` and default
values elsewhere, used for concrete instances. -/
def mkRow (id title : String) : PRow :=
  ⟨id, "", "", title, "0", "", "", "", "0", "0", "0", "", "", "0", "0", "", "", ""⟩

/-- C2: merging a record with the same key twice through `export_to_csv`
yields a store with exactly one row for that key, holding the second write's
values; and after any merge the store has at most one row per key value. -/
theorem export_to_csv_merge_unique (rows items : List PRow) (r₁ r₂ : PRow)
    (_hk : r₁.itemId = r₂.itemId) :
    (export_to_csv (export_to_csv rows [r₁]) [r₂]).filter
        (fun r => r.itemId = r₂.itemId) = [r₂] ∧
      ((export_to_csv rows items).map PRow.itemId).Nodup := by
  refine ⟨?_, nodup_export_to_csv_keys rows items⟩
  rw [export_to_csv_filter]
  have hm : mergeByKey PRow.itemId (get_existing_items (export_to_csv rows [r₁])) [r₂] =
      dictInsert (get_existing_items (export_to_csv rows [r₁])) r₂.itemId r₂ := rfl
  rw [hm, dictLookup_dictInsert_self]
  rfl

/-- Witness for `export_to_csv_merge_unique` at a concrete store and records. -/
theorem export_to_csv_merge_unique_witness :
    (export_to_csv (export_to_csv [] [mkRow "7" "Old"]) [mkRow "7" "New"]).filter
        (fun r => r.itemId = (mkRow "7" "New").itemId) = [mkRow "7" "New"] ∧
      ((export_to_csv [] [mkRow "7" "Old", mkRow "9" "Brand"]).map PRow.itemId).Nodup :=
  export_to_csv_merge_unique [] [mkRow "7" "Old", mkRow "9" "Brand"]
    (mkRow "7" "Old") (mkRow "7" "New") rfl

/-- C3 counterexample: two records with the same key but different field
values merged in the two orders give different final mappings from key to row
values — the last write for a key wins, so order-independence fails when the
batch has duplicate keys. -/
theorem export_to_csv_order_dependent :
    (export_to_csv [] [mkRow "7" "Old", mkRow "7" "New"]).filter
        (fun r => r.itemId = "7") = [mkRow "7" "New"] ∧
      (export_to_csv [] [mkRow "7" "New", mkRow "7" "Old"]).filter
        (fun r => r.itemId = "7") = [mkRow "7" "Old"] ∧
      mkRow "7" "New" ≠ mkRow "7" "Old" := by decide

/-- C3 amended: for batches whose records have pairwise distinct keys,
merging via `export_to_csv` in any permutation of their order produces the
same final mapping from key to row values. -/
theorem export_to_csv_perm_of_nodup (rows items items' : List PRow)
    (hp : items.Perm items') (hnd : (items.map PRow.itemId).Nodup) (k : String) :
    (export_to_csv rows items).filter (fun r => r.itemId = k) =
      (export_to_csv rows items').filter (fun r => r.itemId = k) := by
  rw [export_to_csv_filter, export_to_csv_filter, dictLookup_mergeByKey,
    dictLookup_mergeByKey]
  have heq : lastWrite PRow.itemId k items = lastWrite PRow.itemId k items' := by
    unfold lastWrite
    rw [eq_of_perm_of_length_le_one (hp.filter _)
      (length_filter_key_le_one PRow.itemId hnd k)]
  rw [heq]

/-- Witness for `export_to_csv_perm_of_nodup` at a concrete transposition. -/
theorem export_to_csv_perm_of_nodup_witness :
    (export_to_csv [] [mkRow "7" "New", mkRow "9" "Brand"]).filter
        (fun r => r.itemId = "7") =
      (export_to_csv [] [mkRow "9" "Brand", mkRow "7" "New"]).filter
        (fun r => r.itemId = "7") :=
  export_to_csv_perm_of_nodup [] [mkRow "7" "New", mkRow "9" "Brand"]
    [mkRow "9" "Brand", mkRow "7" "New"] (by decide) (by decide) "7"

/-! ## Paginated fetch (`PocketExporter.fetch_page` / `fetch_new_items`) -/

/-- The pagination loop of `fetch_new_items`, over an abstract record source
`src` mapping a request offset to the page the API returns for it
(`fetch_page` formats the page and reports
`has_more = len(items) >= items_per_page`).  The loop keeps requesting while
a returned page has at least `n = items_per_page` items, advances the offset
by the number of items received (`offset += len(items)`), and accumulates
every page.  The `while` loop is given explicit fuel; the termination
theorem shows any fuel bound exceeding the number of full pages suffices. -/
def fetch_loop {α : Type} (src : Nat → List α) (n : Nat) :
    Nat → Nat → Option (List α)
  | _, 0 => none
  | offset, fuel + 1 =>
      let page := src offset
      if n ≤ page.length then
        match fetch_loop src n (offset + page.length) fuel with
        | some rest => some (page ++ rest)
        | none => none
      else some page

theorem fetch_loop_spec_aux {α : Type} (src : Nat → List α) (n : Nat) :
    ∀ (K offset fuel : Nat),
      (∀ k, k < K → (src (offset + k * n)).length = n) →
      (src (offset + K * n)).length < n →
      K < fuel →
      fetch_loop src n offset fuel =
        some (((List.range (K + 1)).map (fun k => src (offset + k * n))).flatten) := by
  intro K
  induction K with
  | zero =>
      intro offset fuel hfull hshort hfuel
      match fuel, hfuel with
      | fuel + 1, _ =>
        have hshort' : (src offset).length < n := by simpa using hshort
        have hunfold : fetch_loop src n offset (fuel + 1) =
            if n ≤ (src offset).length then
              (match fetch_loop src n (offset + (src offset).length) fuel with
                | some rest => some (src offset ++ rest)
                | none => none)
            else some (src offset) := rfl
        rw [hunfold, if_neg (Nat.not_le.mpr hshort')]
        have hone : List.range 1 = [0] := rfl
        rw [hone]
        simp
  | succ K ih =>
      intro offset fuel hfull hshort hfuel
      match fuel, hfuel with
      | fuel + 1, hfuel =>
        have h0 : (src offset).length = n := by
          simpa using hfull 0 (Nat.succ_pos K)
        have hfull' : ∀ k, k < K → (src (offset + n + k * n)).length = n := by
          intro k hk
          have h := hfull (k + 1) (Nat.succ_lt_succ hk)
          have harith : offset + (k + 1) * n = offset + n + k * n := by ring
          rwa [harith] at h
        have hshort' : (src (offset + n + K * n)).length < n := by
          have harith : offset + (K + 1) * n = offset + n + K * n := by ring
          rwa [harith] at hshort
        have hrec := ih (offset + n) fuel hfull' hshort'
          (Nat.lt_of_succ_lt_succ hfuel)
        have hunfold : fetch_loop src n offset (fuel + 1) =
            if n ≤ (src offset).length then
              (match fetch_loop src n (offset + (src offset).length) fuel with
                | some rest => some (src offset ++ rest)
                | none => none)
            else some (src offset) := rfl
        rw [hunfold, if_pos (le_of_eq h0.symm), h0, hrec]
        have hmap : (List.range (K + 1)).map (fun k => src (offset + n + k * n)) =
            (List.range (K + 1)).map (fun k => src (offset + (k + 1) * n)) := by
          refine List.map_congr_left ?_
          intro k _
          congr 1
          ring
        have hsplit : (((List.range (K + 1 + 1)).map
              (fun k => src (offset + k * n))).flatten) =
            src (offset + 0 * n) ++
              (((List.range (K + 1)).map (fun k => src (offset + (k + 1) * n))).flatten) := by
          rw [List.range_succ_eq_map]
          simp [List.map_map, Function.comp_def]
        rw [hmap, hsplit]
        simp

/-- C4: for a source returning `K` full pages (each of exactly
`n = items_per_page` items) followed by one page strictly smaller than
`items_per_page`, the fetch loop of `fetch_new_items` terminates within any
fuel bound exceeding `K` and returns the concatenation of all the pages in
order, including the short final page, having requested them at offsets
advanced each time by the number of items received. -/
theorem fetch_loop_pages {α : Type} (src : Nat → List α) (n K fuel : Nat)
    (hfull : ∀ k, k < K → (src (k * n)).length = n)
    (hshort : (src (K * n)).length < n)
    (hfuel : K < fuel) :
    fetch_loop src n 0 fuel =
      some (((List.range (K + 1)).map (fun k => src (k * n))).flatten) := by
  have h := fetch_loop_spec_aux src n K 0 fuel
    (by simpa using hfull) (by simpa using hshort) hfuel
  simpa using h

/-- A concrete record source: two full pages of size 2 at offsets 0 and 2,
then a short page at offset 4. -/
def pageSrc : Nat → List Nat :=
  fun o => if o < 4 then [o, o + 1] else if o = 4 then [99] else []

/-- Witness for `fetch_loop_pages` on `pageSrc`. -/
theorem fetch_loop_pages_witness :
    fetch_loop pageSrc 2 0 3 = some [0, 1, 2, 3, 99] := by
  have h := fetch_loop_pages pageSrc 2 2 3
    (by intro k hk; interval_cases k <;> rfl) (by decide) (by decide)
  rw [h]
  rfl

/-! ## The `run` driver (`PocketExporter.run`) -/

/-- The persistent state one `PocketExporter` run touches: the watermark
timestamp file (`<csv_path>.timestamp`, absent or holding an integer) and
the CSV store's rows. -/
structure PocketState where
  watermark : Option Nat
  store : List PRow
deriving DecidableEq, Repr

/-- The page-list form of the pagination loop of `fetch_new_items`: consume
the pages a source hands back in order, continuing exactly while a page has
at least `n` items. -/
def fetch_pages (n : Nat) : List (List PRow) → List PRow
  | [] => []
  | p :: rest => if n ≤ p.length then p ++ fetch_pages n rest else p

/-- `PocketExporter.run`: `fetch_new_items` reads the stored watermark
(`since` only parameterises the HTTP request), accumulates all pages, and —
still inside `fetch_new_items`, before `run` ever calls `export_to_csv` —
persists the fetch-start time via `save_last_update_time` whenever any item
was fetched.  `run` then merges the items into the store with
`export_to_csv`; a failure of that step (disk error, etc.) is modelled by
`exportOk = false` and re-raised by `run`.  Returns the final persistent
state and whether the run succeeded. -/
def pocket_run (n : Nat) (pages : List (List PRow)) (currentTime : Nat)
    (exportOk : Bool) (s : PocketState) : PocketState × Bool :=
  let allItems := fetch_pages n pages
  let s₁ := if allItems.isEmpty then s
            else { s with watermark := some currentTime }
  if allItems.isEmpty then (s₁, true)
  else if exportOk then
    ({ s₁ with store := export_to_csv s₁.store allItems }, true)
  else (s₁, false)

/-- C1 (code bug): with a prior watermark of `5`, one fetched item, fetch
time `100` and a failing `export_to_csv`, the run fails yet the persisted
watermark has already been replaced by `100` — `fetch_new_items` calls
`save_last_update_time` before `run` attempts the merge-and-write, so on a
write failure the watermark file does not retain its prior contents. -/
theorem pocket_run_watermark_advanced_on_failure :
    (pocket_run 30 [[mkRow "1" "t"]] 100 false ⟨some 5, []⟩).2 = false ∧
      (pocket_run 30 [[mkRow "1" "t"]] 100 false ⟨some 5, []⟩).1.watermark = some 100 ∧
      (pocket_run 30 [[mkRow "1" "t"]] 100 false ⟨some 5, []⟩).1.watermark ≠ some 5 := by
  decide

/-! ## Takeout archive selection (`dropbox_takeout_to_csv.py`) -/

/-- Lexicographic comparison of character lists by code point — the
comparison Python applies to strings: the empty string is least, otherwise
compare the first characters and recurse on equality. -/
def charListLe : List Char → List Char → Bool
  | [], _ => true
  | _ :: _, [] => false
  | a :: as, b :: bs => if a = b then charListLe as bs else decide (a < b)

/-- Python string `<=`, by code points. -/
def strLe (a b : String) : Bool := charListLe a.data b.data

theorem charListLe_refl : ∀ l : List Char, charListLe l l = true
  | [] => rfl
  | _ :: t => by simp [charListLe, charListLe_refl t]

theorem charListLe_total : ∀ a b : List Char,
    charListLe a b = true ∨ charListLe b a = true
  | [], _ => Or.inl rfl
  | _ :: _, [] => Or.inr rfl
  | a :: as, b :: bs => by
      by_cases h : a = b
      · subst h
        simpa [charListLe] using charListLe_total as bs
      · rcases lt_or_gt_of_ne h with hlt | hgt
        · exact Or.inl (by simp [charListLe, h, hlt])
        · exact Or.inr (by simp [charListLe, Ne.symm h, hgt])

theorem charListLe_trans : ∀ a b c : List Char,
    charListLe a b = true → charListLe b c = true → charListLe a c = true
  | [], _, _, _, _ => rfl
  | a :: as, [], c, hab, _ => by simp [charListLe] at hab
  | a :: as, b :: bs, [], _, hbc => by simp [charListLe] at hbc
  | a :: as, b :: bs, c :: cs, hab, hbc => by
      by_cases hab' : a = b
      · subst hab'
        by_cases hbc' : a = c
        · subst hbc'
          simp only [charListLe, if_pos rfl] at hab hbc ⊢
          exact charListLe_trans as bs cs hab hbc
        · simp only [charListLe, if_pos rfl] at hab
          simpa [charListLe, hbc'] using hbc
      · by_cases hbc' : b = c
        · subst hbc'
          simpa [charListLe, hab'] using hab
        · have h₁ : a < b := by simpa [charListLe, hab'] using hab
          have h₂ : b < c := by simpa [charListLe, hbc'] using hbc
          have h₃ : a < c := lt_trans h₁ h₂
          simp [charListLe, ne_of_lt h₃, h₃]

/-- Python string `>=` as a relation, used by the descending sort. -/
def strGe (a b : String) : Prop := strLe b a = true

instance : DecidableRel strGe := fun a b =>
  inferInstanceAs (Decidable (strLe b a = true))

instance : IsTotal String strGe :=
  ⟨fun a b => (charListLe_total b.data a.data).elim Or.inl Or.inr⟩

instance : IsTrans String strGe :=
  ⟨fun _ b _ hab hbc => charListLe_trans _ b.data _ hbc hab⟩

instance : IsRefl String strGe := ⟨fun a => charListLe_refl a.data⟩

/-- `find_latest_takeout`: the `takeout-*.zip` files of the directory minus
the pickled set of already-processed files (the directory listing and the
set are taken as explicit arguments). -/
def find_latest_takeout (takeoutFiles processedFiles : List String) :
    List String :=
  takeoutFiles.filter (fun f => f ∉ processedFiles)

/-- The `main` of the takeout script, on its persistent data: sort the
unprocessed files descending (`unprocessed_files.sort(reverse=True)`, a
stable sort by Python string comparison, mirrored by
`insertionSort strGe`), process only the first one
(`unprocessed_files[0]`), and on success add exactly it to the processed
set.  Returns `none` when there is nothing to process (the set is left
unchanged), otherwise the processed file and the new set. -/
def takeout_main (takeoutFiles processedFiles : List String) :
    Option (String × List String) :=
  match (find_latest_takeout takeoutFiles processedFiles).insertionSort strGe with
  | [] => none
  | latest :: _ => some (latest, processedFiles ++ [latest])

/-- C5: a run processes exactly the lexicographically greatest unprocessed
archive, leaving older unprocessed archives alone, and the new watermark set
is the prior set plus that one file; in particular, with `takeout-2.zip` and
`takeout-1.zip` unprocessed, only `takeout-2.zip` is processed and the set
becomes exactly that file. -/
theorem takeout_main_latest_only :
    (∀ takeoutFiles processedFiles (f₀ : String), f₀ ∈ takeoutFiles →
      f₀ ∉ processedFiles →
      ∃ m, takeout_main takeoutFiles processedFiles =
            some (m, processedFiles ++ [m]) ∧
          m ∈ takeoutFiles ∧ m ∉ processedFiles ∧
          ∀ f ∈ takeoutFiles, f ∉ processedFiles → strGe m f) ∧
    takeout_main ["takeout-2.zip", "takeout-1.zip"] [] =
      some ("takeout-2.zip", ["takeout-2.zip"]) := by
  constructor
  · intro takeoutFiles processedFiles f₀ hmem hun
    set unprocessed := find_latest_takeout takeoutFiles processedFiles with hu
    have hf₀ : f₀ ∈ unprocessed := by
      rw [hu]
      unfold find_latest_takeout
      simp only [List.mem_filter, decide_eq_true_eq]
      exact ⟨hmem, by simpa using hun⟩
    have hperm : (unprocessed.insertionSort strGe).Perm unprocessed :=
      List.perm_insertionSort _ _
    have hsorted := List.sorted_insertionSort (α := String) strGe unprocessed
    cases hsort : unprocessed.insertionSort strGe with
    | nil =>
        rw [hsort] at hperm
        rw [List.Perm.eq_nil hperm.symm] at hf₀
        exact absurd hf₀ (List.not_mem_nil f₀)
    | cons m rest =>
        rw [hsort] at hperm hsorted
        have hm : m ∈ unprocessed := hperm.mem_iff.mp (by simp)
        have hmfil := List.mem_filter.mp (hu ▸ hm)
        refine ⟨m, ?_, hmfil.1, by simpa using hmfil.2, ?_⟩
        · unfold takeout_main
          rw [← hu, hsort]
        · intro f hf hfp
          have hfu : f ∈ unprocessed := by
            rw [hu]
            unfold find_latest_takeout
            simp only [List.mem_filter, decide_eq_true_eq]
            exact ⟨hf, by simpa using hfp⟩
          rcases List.mem_cons.mp (hperm.mem_iff.mpr hfu) with hfm | hfr
          · exact hfm ▸ refl_of strGe m
          · exact (List.sorted_cons.mp hsorted).1 f hfr
  · decide

/-- Witness for the universally quantified part of
`takeout_main_latest_only`, at the spec's concrete scenario. -/
theorem takeout_main_latest_only_witness :
    ∃ m, takeout_main ["takeout-2.zip", "takeout-1.zip"] [] =
          some (m, [] ++ [m]) ∧
        m ∈ ["takeout-2.zip", "takeout-1.zip"] ∧ m ∉ ([] : List String) ∧
        ∀ f ∈ ["takeout-2.zip", "takeout-1.zip"], f ∉ ([] : List String) → strGe m f :=
  takeout_main_latest_only.1 ["takeout-2.zip", "takeout-1.zip"] []
    "takeout-2.zip" (by decide) (by decide)

/-! ## Takeout history extraction (`process_youtube_history`) -/

/-- Search for the first occurrence of `sep` in `l`; when found, return
what follows it (`'sep' in s` and `s.split(sep)[1:]` territory). -/
def findAfter (sep : List Char) : List Char → Option (List Char)
  | [] => if sep.isEmpty then some [] else none
  | c :: rest =>
      if sep.isPrefixOf (c :: rest) then some ((c :: rest).drop sep.length)
      else findAfter sep rest

/-- Cut `l` at the next occurrence of `sep`: applied to the text after the
first occurrence, this is Python's `s.split(sep)[1]`. -/
def takeUntilSeq (sep : List Char) : List Char → List Char
  | [] => []
  | c :: rest =>
      if sep ≠ [] ∧ sep.isPrefixOf (c :: rest) then []
      else c :: takeUntilSeq sep rest

/-- `extract_video_id`: if `'watch?v=' in url`, take
`url.split('watch?v=')[1].split('&')[0]`; otherwise the final `/`-separated
path segment (`url.split('/')[-1]`). -/
def extract_video_id (url : String) : String :=
  match findAfter "watch?v=".data url.data with
  | some rest =>
      String.mk ((takeUntilSeq "watch?v=".data rest).takeWhile (fun c => c ≠ '&'))
  | none => String.mk ((url.data.reverse.takeWhile (fun c => c ≠ '/')).reverse)

/-- `determine_source`: `"music"` when `"music.youtube.com" in url`, else
`"youtube"`. -/
def determine_source (url : String) : String :=
  if (findAfter "music.youtube.com".data url.data).isSome then "music"
  else "youtube"

/-- An entry of `watch-history.json`: the two fields the script reads,
each possibly absent. -/
structure HistEntry where
  titleUrl : Option String
  time : Option String
deriving DecidableEq, Repr

/-- The data rows of the output CSV (header row excluded): one
`(time, videoId, source)` row per entry carrying both `titleUrl` and
`time`. -/
def youtube_history_rows (entries : List HistEntry) :
    List (String × String × String) :=
  entries.filterMap (fun e =>
    match e.titleUrl, e.time with
    | some url, some t => some (t, extract_video_id url, determine_source url)
    | _, _ => none)

/-- The file-system state `process_youtube_history` touches: whether the
`.temp_extract` directory exists and the output CSV contents. -/
structure TakeoutFs where
  tempDirExists : Bool
  outputCsv : Option (List (String × String × String))
deriving DecidableEq, Repr

/-- `process_youtube_history` as a step function on the file-system state.
`namelist` is the zip's member list; if no member ends in
`watch-history.json` the function raises before creating the temporary
directory.  Otherwise the temp directory is created and the member
extracted; `parseOk` models whether `json.load` succeeds on the extracted
file (yielding `entries`), `writeOk` whether writing the output CSV
succeeds.  Returns the new state and `true` on success, `false` when the
function raises.  The `shutil.rmtree(temp_dir)` cleanup is the last
statement of the function body, with no `try`/`finally` around it, so it
runs only on the all-success path. -/
def process_youtube_history (namelist : List String) (parseOk writeOk : Bool)
    (entries : List HistEntry) (s : TakeoutFs) : TakeoutFs × Bool :=
  match namelist.find? (fun f => "watch-history.json".data.isSuffixOf f.data) with
  | none => (s, false)
  | some _ =>
      let s₁ : TakeoutFs := { s with tempDirExists := true }
      if parseOk = false then (s₁, false)
      else if writeOk = false then (s₁, false)
      else ({ tempDirExists := false,
              outputCsv := some (youtube_history_rows entries) }, true)

/-- C6 (code bug): when parsing the extracted JSON fails — or when writing
the output CSV fails — `process_youtube_history` raises with the
`.temp_extract` directory left behind: the `shutil.rmtree` cleanup is the
final statement of the function with no `try`/`finally`, so it is reached
only on success (where the directory is indeed removed). -/
theorem process_youtube_history_leaves_temp_dir :
    ((process_youtube_history ["Takeout/YouTube/history/watch-history.json"]
        false true [] ⟨false, none⟩).1.tempDirExists = true ∧
      (process_youtube_history ["Takeout/YouTube/history/watch-history.json"]
        false true [] ⟨false, none⟩).2 = false) ∧
    ((process_youtube_history ["Takeout/YouTube/history/watch-history.json"]
        true false [] ⟨false, none⟩).1.tempDirExists = true ∧
      (process_youtube_history ["Takeout/YouTube/history/watch-history.json"]
        true false [] ⟨false, none⟩).2 = false) ∧
    (process_youtube_history ["Takeout/YouTube/history/watch-history.json"]
        true true [] ⟨false, none⟩).1.tempDirExists = false := by
  decide

/-! ## Tag matching (`pocket_tagger.py`) -/

/-- The non-ASCII word characters of Python `re`'s Unicode-aware `\w`
(codepoints at least 128 the pattern `\w` matches), as inclusive codepoint
ranges taken from the regex engine's character classification. -/
def nonAsciiWordRanges : List (Nat × Nat) :=
  [ (170, 170), (178, 179), (181, 181), (185, 186), (188, 190), (192, 214),
   (216, 246), (248, 705), (710, 721), (736, 740), (748, 748), (750, 750),
   (880, 884), (886, 887), (890, 893), (895, 895), (902, 902), (904, 906),
   (908, 908), (910, 929), (931, 1013), (1015, 1153), (1162, 1327),
   (1329, 1366), (1369, 1369), (1376, 1416), (1488, 1514), (1519, 1522),
   (1568, 1610), (1632, 1641), (1646, 1647), (1649, 1747), (1749, 1749),
   (1765, 1766), (1774, 1788), (1791, 1791), (1808, 1808), (1810, 1839),
   (1869, 1957), (1969, 1969), (1984, 2026), (2036, 2037), (2042, 2042),
   (2048, 2069), (2074, 2074), (2084, 2084), (2088, 2088), (2112, 2136),
   (2144, 2154), (2160, 2183), (2185, 2190), (2208, 2249), (2308, 2361),
   (2365, 2365), (2384, 2384), (2392, 2401), (2406, 2415), (2417, 2432),
   (2437, 2444), (2447, 2448), (2451, 2472), (2474, 2480), (2482, 2482),
   (2486, 2489), (2493, 2493), (2510, 2510), (2524, 2525), (2527, 2529),
   (2534, 2545), (2548, 2553), (2556, 2556), (2565, 2570), (2575, 2576),
   (2579, 2600), (2602, 2608), (2610, 2611), (2613, 2614), (2616, 2617),
   (2649, 2652), (2654, 2654), (2662, 2671), (2674, 2676), (2693, 2701),
   (2703, 2705), (2707, 2728), (2730, 2736), (2738, 2739), (2741, 2745),
   (2749, 2749), (2768, 2768), (2784, 2785), (2790, 2799), (2809, 2809),
   (2821, 2828), (2831, 2832), (2835, 2856), (2858, 2864), (2866, 2867),
   (2869, 2873), (2877, 2877), (2908, 2909), (2911, 2913), (2918, 2927),
   (2929, 2935), (2947, 2947), (2949, 2954), (2958, 2960), (2962, 2965),
   (2969, 2970), (2972, 2972), (2974, 2975), (2979, 2980), (2984, 2986),
   (2990, 3001), (3024, 3024), (3046, 3058), (3077, 3084), (3086, 3088),
   (3090, 3112), (3114, 3129), (3133, 3133), (3160, 3162), (3165, 3165),
   (3168, 3169), (3174, 3183), (3192, 3198), (3200, 3200), (3205, 3212),
   (3214, 3216), (3218, 3240), (3242, 3251), (3253, 3257), (3261, 3261),
   (3293, 3294), (3296, 3297), (3302, 3311), (3313, 3314), (3332, 3340),
   (3342, 3344), (3346, 3386), (3389, 3389), (3406, 3406), (3412, 3414),
   (3416, 3425), (3430, 3448), (3450, 3455), (3461, 3478), (3482, 3505),
   (3507, 3515), (3517, 3517), (3520, 3526), (3558, 3567), (3585, 3632),
   (3634, 3635), (3648, 3654), (3664, 3673), (3713, 3714), (3716, 3716),
   (3718, 3722), (3724, 3747), (3749, 3749), (3751, 3760), (3762, 3763),
   (3773, 3773), (3776, 3780), (3782, 3782), (3792, 3801), (3804, 3807),
   (3840, 3840), (3872, 3891), (3904, 3911), (3913, 3948), (3976, 3980),
   (4096, 4138), (4159, 4169), (4176, 4181), (4186, 4189), (4193, 4193),
   (4197, 4198), (4206, 4208), (4213, 4225), (4238, 4238), (4240, 4249),
   (4256, 4293), (4295, 4295), (4301, 4301), (4304, 4346), (4348, 4680),
   (4682, 4685), (4688, 4694), (4696, 4696), (4698, 4701), (4704, 4744),
   (4746, 4749), (4752, 4784), (4786, 4789), (4792, 4798), (4800, 4800),
   (4802, 4805), (4808, 4822), (4824, 4880), (4882, 4885), (4888, 4954),
   (4969, 4988), (4992, 5007), (5024, 5109), (5112, 5117), (5121, 5740),
   (5743, 5759), (5761, 5786), (5792, 5866), (5870, 5880), (5888, 5905),
   (5919, 5937), (5952, 5969), (5984, 5996), (5998, 6000), (6016, 6067),
   (6103, 6103), (6108, 6108), (6112, 6121), (6128, 6137), (6160, 6169),
   (6176, 6264), (6272, 6276), (6279, 6312), (6314, 6314), (6320, 6389),
   (6400, 6430), (6470, 6509), (6512, 6516), (6528, 6571), (6576, 6601),
   (6608, 6618), (6656, 6678), (6688, 6740), (6784, 6793), (6800, 6809),
   (6823, 6823), (6917, 6963), (6981, 6988), (6992, 7001), (7043, 7072),
   (7086, 7141), (7168, 7203), (7232, 7241), (7245, 7293), (7296, 7304),
   (7312, 7354), (7357, 7359), (7401, 7404), (7406, 7411), (7413, 7414),
   (7418, 7418), (7424, 7615), (7680, 7957), (7960, 7965), (7968, 8005),
   (8008, 8013), (8016, 8023), (8025, 8025), (8027, 8027), (8029, 8029),
   (8031, 8061), (8064, 8116), (8118, 8124), (8126, 8126), (8130, 8132),
   (8134, 8140), (8144, 8147), (8150, 8155), (8160, 8172), (8178, 8180),
   (8182, 8188), (8304, 8305), (8308, 8313), (8319, 8329), (8336, 8348),
   (8450, 8450), (8455, 8455), (8458, 8467), (8469, 8469), (8473, 8477),
   (8484, 8484), (8486, 8486), (8488, 8488), (8490, 8493), (8495, 8505),
   (8508, 8511), (8517, 8521), (8526, 8526), (8528, 8585), (9312, 9371),
   (9450, 9471), (10102, 10131), (11264, 11492), (11499, 11502),
   (11506, 11507), (11517, 11517), (11520, 11557), (11559, 11559),
   (11565, 11565), (11568, 11623), (11631, 11631), (11648, 11670),
   (11680, 11686), (11688, 11694), (11696, 11702), (11704, 11710),
   (11712, 11718), (11720, 11726), (11728, 11734), (11736, 11742),
   (11823, 11823), (12293, 12295), (12321, 12329), (12337, 12341),
   (12344, 12348), (12353, 12438), (12445, 12447), (12449, 12538),
   (12540, 12543), (12549, 12591), (12593, 12686), (12690, 12693),
   (12704, 12735), (12784, 12799), (12832, 12841), (12872, 12879),
   (12881, 12895), (12928, 12937), (12977, 12991), (13312, 19903),
   (19968, 42124), (42192, 42237), (42240, 42508), (42512, 42539),
   (42560, 42606), (42623, 42653), (42656, 42735), (42775, 42783),
   (42786, 42888), (42891, 42954), (42960, 42961), (42963, 42963),
   (42965, 42969), (42994, 43009), (43011, 43013), (43015, 43018),
   (43020, 43042), (43056, 43061), (43072, 43123), (43138, 43187),
   (43216, 43225), (43250, 43255), (43259, 43259), (43261, 43262),
   (43264, 43301), (43312, 43334), (43360, 43388), (43396, 43442),
   (43471, 43481), (43488, 43492), (43494, 43518), (43520, 43560),
   (43584, 43586), (43588, 43595), (43600, 43609), (43616, 43638),
   (43642, 43642), (43646, 43695), (43697, 43697), (43701, 43702),
   (43705, 43709), (43712, 43712), (43714, 43714), (43739, 43741),
   (43744, 43754), (43762, 43764), (43777, 43782), (43785, 43790),
   (43793, 43798), (43808, 43814), (43816, 43822), (43824, 43866),
   (43868, 43881), (43888, 44002), (44016, 44025), (44032, 55203),
   (55216, 55238), (55243, 55291), (63744, 64109), (64112, 64217),
   (64256, 64262), (64275, 64279), (64285, 64285), (64287, 64296),
   (64298, 64310), (64312, 64316), (64318, 64318), (64320, 64321),
   (64323, 64324), (64326, 64433), (64467, 64829), (64848, 64911),
   (64914, 64967), (65008, 65019), (65136, 65140), (65142, 65276),
   (65296, 65305), (65313, 65338), (65345, 65370), (65382, 65470),
   (65474, 65479), (65482, 65487), (65490, 65495), (65498, 65500),
   (65536, 65547), (65549, 65574), (65576, 65594), (65596, 65597),
   (65599, 65613), (65616, 65629), (65664, 65786), (65799, 65843),
   (65856, 65912), (65930, 65931), (66176, 66204), (66208, 66256),
   (66273, 66299), (66304, 66339), (66349, 66378), (66384, 66421),
   (66432, 66461), (66464, 66499), (66504, 66511), (66513, 66517),
   (66560, 66717), (66720, 66729), (66736, 66771), (66776, 66811),
   (66816, 66855), (66864, 66915), (66928, 66938), (66940, 66954),
   (66956, 66962), (66964, 66965), (66967, 66977), (66979, 66993),
   (66995, 67001), (67003, 67004), (67072, 67382), (67392, 67413),
   (67424, 67431), (67456, 67461), (67463, 67504), (67506, 67514),
   (67584, 67589), (67592, 67592), (67594, 67637), (67639, 67640),
   (67644, 67644), (67647, 67669), (67672, 67702), (67705, 67742),
   (67751, 67759), (67808, 67826), (67828, 67829), (67835, 67867),
   (67872, 67897), (67968, 68023), (68028, 68047), (68050, 68096),
   (68112, 68115), (68117, 68119), (68121, 68149), (68160, 68168),
   (68192, 68222), (68224, 68255), (68288, 68295), (68297, 68324),
   (68331, 68335), (68352, 68405), (68416, 68437), (68440, 68466),
   (68472, 68497), (68521, 68527), (68608, 68680), (68736, 68786),
   (68800, 68850), (68858, 68899), (68912, 68921), (69216, 69246),
   (69248, 69289), (69296, 69297), (69376, 69415), (69424, 69445),
   (69457, 69460), (69488, 69505), (69552, 69579), (69600, 69622),
   (69635, 69687), (69714, 69743), (69745, 69746), (69749, 69749),
   (69763, 69807), (69840, 69864), (69872, 69881), (69891, 69926),
   (69942, 69951), (69956, 69956), (69959, 69959), (69968, 70002),
   (70006, 70006), (70019, 70066), (70081, 70084), (70096, 70106),
   (70108, 70108), (70113, 70132), (70144, 70161), (70163, 70187),
   (70272, 70278), (70280, 70280), (70282, 70285), (70287, 70301),
   (70303, 70312), (70320, 70366), (70384, 70393), (70405, 70412),
   (70415, 70416), (70419, 70440), (70442, 70448), (70450, 70451),
   (70453, 70457), (70461, 70461), (70480, 70480), (70493, 70497),
   (70656, 70708), (70727, 70730), (70736, 70745), (70751, 70753),
   (70784, 70831), (70852, 70853), (70855, 70855), (70864, 70873),
   (71040, 71086), (71128, 71131), (71168, 71215), (71236, 71236),
   (71248, 71257), (71296, 71338), (71352, 71352), (71360, 71369),
   (71424, 71450), (71472, 71483), (71488, 71494), (71680, 71723),
   (71840, 71922), (71935, 71942), (71945, 71945), (71948, 71955),
   (71957, 71958), (71960, 71983), (71999, 71999), (72001, 72001),
   (72016, 72025), (72096, 72103), (72106, 72144), (72161, 72161),
   (72163, 72163), (72192, 72192), (72203, 72242), (72250, 72250),
   (72272, 72272), (72284, 72329), (72349, 72349), (72368, 72440),
   (72704, 72712), (72714, 72750), (72768, 72768), (72784, 72812),
   (72818, 72847), (72960, 72966), (72968, 72969), (72971, 73008),
   (73030, 73030), (73040, 73049), (73056, 73061), (73063, 73064),
   (73066, 73097), (73112, 73112), (73120, 73129), (73440, 73458),
   (73648, 73648), (73664, 73684), (73728, 74649), (74752, 74862),
   (74880, 75075), (77712, 77808), (77824, 78894), (82944, 83526),
   (92160, 92728), (92736, 92766), (92768, 92777), (92784, 92862),
   (92864, 92873), (92880, 92909), (92928, 92975), (92992, 92995),
   (93008, 93017), (93019, 93025), (93027, 93047), (93053, 93071),
   (93760, 93846), (93952, 94026), (94032, 94032), (94099, 94111),
   (94176, 94177), (94179, 94179), (94208, 100343), (100352, 101589),
   (101632, 101640), (110576, 110579), (110581, 110587), (110589, 110590),
   (110592, 110882), (110928, 110930), (110948, 110951), (110960, 111355),
   (113664, 113770), (113776, 113788), (113792, 113800), (113808, 113817),
   (119520, 119539), (119648, 119672), (119808, 119892), (119894, 119964),
   (119966, 119967), (119970, 119970), (119973, 119974), (119977, 119980),
   (119982, 119993), (119995, 119995), (119997, 120003), (120005, 120069),
   (120071, 120074), (120077, 120084), (120086, 120092), (120094, 120121),
   (120123, 120126), (120128, 120132), (120134, 120134), (120138, 120144),
   (120146, 120485), (120488, 120512), (120514, 120538), (120540, 120570),
   (120572, 120596), (120598, 120628), (120630, 120654), (120656, 120686),
   (120688, 120712), (120714, 120744), (120746, 120770), (120772, 120779),
   (120782, 120831), (122624, 122654), (123136, 123180), (123191, 123197),
   (123200, 123209), (123214, 123214), (123536, 123565), (123584, 123627),
   (123632, 123641), (124896, 124902), (124904, 124907), (124909, 124910),
   (124912, 124926), (124928, 125124), (125127, 125135), (125184, 125251),
   (125259, 125259), (125264, 125273), (126065, 126123), (126125, 126127),
   (126129, 126132), (126209, 126253), (126255, 126269), (126464, 126467),
   (126469, 126495), (126497, 126498), (126500, 126500), (126503, 126503),
   (126505, 126514), (126516, 126519), (126521, 126521), (126523, 126523),
   (126530, 126530), (126535, 126535), (126537, 126537), (126539, 126539),
   (126541, 126543), (126545, 126546), (126548, 126548), (126551, 126551),
   (126553, 126553), (126555, 126555), (126557, 126557), (126559, 126559),
   (126561, 126562), (126564, 126564), (126567, 126570), (126572, 126578),
   (126580, 126583), (126585, 126588), (126590, 126590), (126592, 126601),
   (126603, 126619), (126625, 126627), (126629, 126633), (126635, 126651),
   (127232, 127244), (130032, 130041), (131072, 173791), (173824, 177976),
   (177984, 178205), (178208, 183969), (183984, 191456), (194560, 195101),
   (196608, 201546)]

/-- A regex word character, with the Unicode-aware semantics of `\w` on
`str` patterns: ASCII letters, digits and underscore, plus the non-ASCII
alphanumeric codepoints of `nonAsciiWordRanges`. -/
def isWordChar (c : Char) : Bool :=
  if c.toNat < 128 then c.isAlphanum || c = '_'
  else nonAsciiWordRanges.any
    (fun p => decide (p.1 ≤ c.toNat) && decide (c.toNat ≤ p.2))

/-- Whether position `p` of `text` holds a word character (out-of-range
counts as a non-word position). -/
def wordAt (text : List Char) (p : Nat) : Bool :=
  (text[p]?.map isWordChar).getD false

/-- Whether the position just before `p` holds a word character. -/
def prevWordAt (text : List Char) : Nat → Bool
  | 0 => false
  | q + 1 => wordAt text q

/-- The regex `\b` word boundary at position `p`: exactly one of the
neighbouring positions holds a word character. -/
def boundaryAt (text : List Char) (p : Nat) : Bool :=
  prevWordAt text p != wordAt text p

/-- A match of the pattern `\b re.escape(tag) \b` starting at position `i`:
the tag occurs literally at `i`, with word boundaries at both ends. -/
def matchAt (tag text : List Char) (i : Nat) : Bool :=
  decide ((text.drop i).take tag.length = tag) && boundaryAt text i &&
    boundaryAt text (i + tag.length)

/-- `re.search(r'\b' + re.escape(tag) + r'\b', text)`: does the pattern
match at some position of `text`? -/
def regex_search_word (tag text : List Char) : Bool :=
  (List.range (text.length + 1)).any (fun i => matchAt tag text i)

/-- `find_matching_tags`: the vocabulary tags whose word-boundary pattern
matches the text, each prefixed with the `'*'` automation sentinel.  The
Python function builds a set from a set; the model keeps the vocabulary's
list order and states membership properties. -/
def find_matching_tags (text : String) (tags : List String) : List String :=
  (tags.filter (fun t => regex_search_word t.data text.data)).map
    (fun t => "*" ++ t)

/-- Specification-side predicate: `tag` occurs in `text` as a whole word —
a literal occurrence whose neighbouring characters (if any) are non-word
characters. -/
def occursAsWholeWord (tag text : List Char) : Prop :=
  ∃ pre post, text = pre ++ tag ++ post ∧
    (∀ c, pre.getLast? = some c → isWordChar c = false) ∧
    (∀ c, post.head? = some c → isWordChar c = false)

theorem find_matching_tags_example₁ :
    find_matching_tags "cats are great" ["cat"] = [] := by decide

theorem find_matching_tags_example₂ :
    find_matching_tags "the cat sat" ["cat"] = ["*cat"] := by decide

theorem matchAt_true_iff (tag text : List Char) (hne : tag ≠ [])
    (hw : ∀ c ∈ tag, isWordChar c = true) (i : Nat) :
    matchAt tag text i = true ↔
      ∃ pre post, text = pre ++ tag ++ post ∧ pre.length = i ∧
        (∀ c, pre.getLast? = some c → isWordChar c = false) ∧
        (∀ c, post.head? = some c → isWordChar c = false) := by
  have hL : 0 < tag.length := List.length_pos.mpr hne
  constructor
  · intro hm
    simp only [matchAt, Bool.and_eq_true, decide_eq_true_eq] at hm
    obtain ⟨⟨htake, hb1⟩, hb2⟩ := hm
    have hlen := congrArg List.length htake
    simp only [List.length_take, List.length_drop] at hlen
    have hiL : i + tag.length ≤ text.length := by omega
    have hdrop : text.drop i = tag ++ text.drop (i + tag.length) := by
      conv_lhs => rw [← List.take_append_drop tag.length (text.drop i)]
      rw [htake, List.drop_drop]
    have hidx : ∀ j, j < tag.length → text[i + j]? = tag[j]? := by
      intro j hj
      rw [← List.getElem?_drop, hdrop, List.getElem?_append, if_pos hj]
    have hpost0 : text[i + tag.length]? = (text.drop (i + tag.length)).head? := by
      rw [List.head?_eq_getElem?, List.getElem?_drop, Nat.add_zero]
    have h0 : text[i]? = tag[0]? := by
      have h := hidx 0 hL
      rwa [Nat.add_zero] at h
    have hcur : wordAt text i = true := by
      unfold wordAt
      rw [h0, List.getElem?_eq_getElem hL]
      simpa using hw _ (List.getElem_mem _)
    have hb1' : prevWordAt text i = false := by
      cases hbv : prevWordAt text i
      · rfl
      · exfalso
        rw [boundaryAt, hbv, hcur] at hb1
        simp at hb1
    have hb2cur : wordAt text (i + tag.length) = false := by
      obtain ⟨M, hM⟩ : ∃ M, i + tag.length = M + 1 :=
        ⟨i + tag.length - 1, by omega⟩
      have hMidx : text[M]? = tag[tag.length - 1]? := by
        have h := hidx (tag.length - 1) (by omega)
        rwa [show i + (tag.length - 1) = M from by omega] at h
      have hprev : prevWordAt text (i + tag.length) = true := by
        rw [hM]
        show wordAt text M = true
        unfold wordAt
        rw [hMidx, List.getElem?_eq_getElem (by omega : tag.length - 1 < tag.length)]
        simpa using hw _ (List.getElem_mem _)
      cases hcv : wordAt text (i + tag.length)
      · rfl
      · exfalso
        rw [boundaryAt, hprev, hcv] at hb2
        simp at hb2
    refine ⟨text.take i, text.drop (i + tag.length), ?_, ?_, ?_, ?_⟩
    · conv_lhs => rw [← List.take_append_drop i text, hdrop]
      rw [List.append_assoc]
    · simp only [List.length_take]
      omega
    · intro c hc
      cases i with
      | zero => simp at hc
      | succ q =>
          have hlast : (text.take (q + 1)).getLast? = text[q]? := by
            rw [List.getLast?_eq_getElem?, List.length_take]
            rw [show min (q + 1) text.length - 1 = q from by omega]
            rw [List.getElem?_take, if_pos (Nat.lt_succ_self q)]
          rw [hlast] at hc
          have hwq : wordAt text q = false := by
            simpa [prevWordAt] using hb1'
          unfold wordAt at hwq
          rw [hc] at hwq
          simpa using hwq
    · intro c hc
      rw [← hpost0] at hc
      unfold wordAt at hb2cur
      rw [hc] at hb2cur
      simpa using hb2cur
  · rintro ⟨pre, post, hdecomp, hlenpre, hpre, hpost⟩
    subst hlenpre
    have hdrop : text.drop pre.length = tag ++ post := by
      rw [hdecomp, List.append_assoc, List.drop_left]
    have hidx : ∀ j, j < tag.length → text[pre.length + j]? = tag[j]? := by
      intro j hj
      rw [← List.getElem?_drop, hdrop, List.getElem?_append, if_pos hj]
    have hpost0 : text[pre.length + tag.length]? = post[0]? := by
      rw [← List.getElem?_drop, hdrop, List.getElem?_append_right (le_refl _)]
      simp
    have hcur : wordAt text pre.length = true := by
      have h0 := hidx 0 hL
      rw [Nat.add_zero] at h0
      unfold wordAt
      rw [h0, List.getElem?_eq_getElem hL]
      simpa using hw _ (List.getElem_mem _)
    have hb1 : boundaryAt text pre.length = true := by
      rw [boundaryAt, hcur]
      cases hp : prevWordAt text pre.length
      · rfl
      · exfalso
        rcases Nat.eq_zero_or_pos pre.length with h0 | hposp
        · rw [h0] at hp
          simp [prevWordAt] at hp
        · obtain ⟨q, hq⟩ : ∃ q, pre.length = q + 1 := ⟨pre.length - 1, by omega⟩
          rw [hq] at hp
          have hp' : wordAt text q = true := by simpa [prevWordAt] using hp
          have hqlt : q < pre.length := by omega
          have htq : text[q]? = pre[q]? := by
            rw [hdecomp, List.append_assoc, List.getElem?_append, if_pos hqlt]
          have hplast : pre.getLast? = pre[q]? := by
            rw [List.getLast?_eq_getElem?, hq]
            simp
          obtain ⟨c, hcq⟩ : ∃ c, pre[q]? = some c :=
            ⟨_, List.getElem?_eq_getElem hqlt⟩
          have hcw : isWordChar c = false := hpre c (by rw [hplast, hcq])
          unfold wordAt at hp'
          rw [htq, hcq] at hp'
          simp [hcw] at hp'
    have hb2 : boundaryAt text (pre.length + tag.length) = true := by
      obtain ⟨M, hM⟩ : ∃ M, pre.length + tag.length = M + 1 :=
        ⟨pre.length + tag.length - 1, by omega⟩
      have hprev : prevWordAt text (pre.length + tag.length) = true := by
        rw [hM]
        show wordAt text M = true
        have h := hidx (tag.length - 1) (by omega)
        rw [show pre.length + (tag.length - 1) = M from by omega] at h
        unfold wordAt
        rw [h, List.getElem?_eq_getElem (by omega : tag.length - 1 < tag.length)]
        simpa using hw _ (List.getElem_mem _)
      have hcur' : wordAt text (pre.length + tag.length) = false := by
        unfold wordAt
        rw [hpost0]
        cases hh : post[0]?
        · rfl
        · have hcw := hpost _ (by rw [List.head?_eq_getElem?, hh])
          simp [hcw]
      rw [boundaryAt, hprev, hcur']
      rfl
    have htake : (text.drop pre.length).take tag.length = tag := by
      rw [hdrop, List.take_left]
    simp only [matchAt, Bool.and_eq_true, decide_eq_true_eq]
    exact ⟨⟨htake, hb1⟩, hb2⟩

theorem regex_search_word_iff (tag text : List Char) (hne : tag ≠ [])
    (hw : ∀ c ∈ tag, isWordChar c = true) :
    regex_search_word tag text = true ↔ occursAsWholeWord tag text := by
  unfold regex_search_word occursAsWholeWord
  rw [List.any_eq_true]
  constructor
  · rintro ⟨i, _, hmatch⟩
    obtain ⟨pre, post, h1, _, h3, h4⟩ :=
      (matchAt_true_iff tag text hne hw i).mp hmatch
    exact ⟨pre, post, h1, h3, h4⟩
  · rintro ⟨pre, post, h1, h3, h4⟩
    refine ⟨pre.length, ?_,
      (matchAt_true_iff tag text hne hw pre.length).mpr
        ⟨pre, post, h1, rfl, h3, h4⟩⟩
    have hle : pre.length ≤ text.length := by
      rw [h1]
      simp only [List.length_append]
      omega
    simp only [List.mem_range]
    omega

/-- C7: `find_matching_tags` returns exactly the vocabulary tags occurring
in the text as whole words — word-boundary matched, with no substring match
inside a longer word — each prefixed with the `'*'` sentinel (stated for
nonempty tags made of word characters, which is what "occurs as a whole
word" presupposes); in particular `"cats are great"` does not match the tag
`"cat"` while `"the cat sat"` does. -/
theorem find_matching_tags_spec :
    (∀ (text : String) (tags : List String),
      (∀ t ∈ tags, t.data ≠ [] ∧ ∀ c ∈ t.data, isWordChar c = true) →
      ∀ s, s ∈ find_matching_tags text tags ↔
        ∃ t ∈ tags, s = "*" ++ t ∧ occursAsWholeWord t.data text.data) ∧
    find_matching_tags "cats are great" ["cat"] = [] ∧
    find_matching_tags "the cat sat" ["cat"] = ["*cat"] := by
  refine ⟨?_, find_matching_tags_example₁, find_matching_tags_example₂⟩
  intro text tags htags s
  unfold find_matching_tags
  simp only [List.mem_map, List.mem_filter]
  constructor
  · rintro ⟨t, ⟨htmem, hsearch⟩, rfl⟩
    exact ⟨t, htmem, rfl,
      (regex_search_word_iff t.data text.data (htags t htmem).1
        (htags t htmem).2).mp hsearch⟩
  · rintro ⟨t, htmem, rfl, hocc⟩
    exact ⟨t, ⟨htmem,
      (regex_search_word_iff t.data text.data (htags t htmem).1
        (htags t htmem).2).mpr hocc⟩, rfl⟩

/-- Witness for `find_matching_tags_spec` at the spec's concrete inputs. -/
theorem find_matching_tags_spec_witness :
    "*cat" ∈ find_matching_tags "the cat sat" ["cat"] ↔
      ∃ t ∈ ["cat"], "*cat" = "*" ++ t ∧
        occursAsWholeWord t.data "the cat sat".data :=
  find_matching_tags_spec.1 "the cat sat" ["cat"] (by decide) "*cat"

/-! ## Favorite cleanup (`untag_pocket.py`) -/

/-- Python's `sep.join(parts)`. -/
def joinWith (sep : String) : List String → String
  | [] => ""
  | [x] => x
  | x :: y :: xs => x ++ sep ++ joinWith sep (y :: xs)

/-- Python's `s.startswith(p)`. -/
def strStartsWith (s p : String) : Bool := p.data.isPrefixOf s.data

/-- A Pocket item as `clean_and_unfavorite_items` reads it: its identifier
and the keys of its `tags` dict. -/
structure PocketItem where
  item_id : String
  tags : List String
deriving DecidableEq, Repr

/-- The batch-mutate actions the script issues. -/
inductive PAction where
  | tagsReplace (item_id : String) (tags : String)
  | unfavorite (item_id : String)
deriving DecidableEq, Repr

/-- The two actions built for one favorited item: `tags_replace` with the
item's tags minus every tag starting with `'*'`, then `unfavorite`. -/
def item_actions (it : PocketItem) : List PAction :=
  [PAction.tagsReplace it.item_id
      (joinWith "," (it.tags.filter (fun t => !(strStartsWith t "*")))),
    PAction.unfavorite it.item_id]

/-- The `while True` loop of `clean_and_unfavorite_items`, over an abstract
fetch returning the favorited items of successive iterations: stop when a
fetch returns no items (or, dead code, when no actions were built —
impossible since every item contributes two), otherwise send the batch and
loop.  Returns the batches sent, one list of actions per iteration, with
explicit fuel bounding the recursion. -/
def clean_and_unfavorite_items (fetch : Nat → List PocketItem) :
    Nat → Nat → Option (List (List PAction))
  | _, 0 => none
  | k, fuel + 1 =>
      let items := fetch k
      if items.isEmpty then some []
      else
        let actions := items.flatMap item_actions
        if actions.isEmpty then some []
        else
          match clean_and_unfavorite_items fetch (k + 1) fuel with
          | some rest => some (actions :: rest)
          | none => none

theorem item_actions_ne_nil (it : PocketItem) : item_actions it ≠ [] := by
  simp [item_actions]

theorem clean_loop_aux (fetch : Nat → List PocketItem) :
    ∀ (K start fuel : Nat),
      (∀ j, j < K → fetch (start + j) ≠ []) → fetch (start + K) = [] →
      K < fuel →
      clean_and_unfavorite_items fetch start fuel =
        some ((List.range K).map
          (fun j => (fetch (start + j)).flatMap item_actions)) := by
  intro K
  induction K with
  | zero =>
      intro start fuel _ hK hfuel
      match fuel, hfuel with
      | fuel + 1, _ =>
        have h0 : fetch start = [] := by simpa using hK
        simp [clean_and_unfavorite_items, h0]
  | succ K ih =>
      intro start fuel hlt hK hfuel
      match fuel, hfuel with
      | fuel + 1, hfuel =>
        have h0 : fetch start ≠ [] := by simpa using hlt 0 (Nat.succ_pos K)
        have hact : (fetch start).flatMap item_actions ≠ [] := by
          cases hf : fetch start with
          | nil => exact absurd hf h0
          | cons it its =>
              simp only [List.flatMap_cons]
              intro hc
              exact item_actions_ne_nil it (List.append_eq_nil.mp hc).1
        have hrec := ih (start + 1) fuel
          (fun j hj => by
            have h := hlt (j + 1) (Nat.succ_lt_succ hj)
            rwa [show start + (j + 1) = start + 1 + j from by omega] at h)
          (by
            have h : start + 1 + K = start + (K + 1) := by omega
            rw [h]
            exact hK)
          (Nat.lt_of_succ_lt_succ hfuel)
        have hunfold : clean_and_unfavorite_items fetch start (fuel + 1) =
            if (fetch start).isEmpty then some []
            else if ((fetch start).flatMap item_actions).isEmpty then some []
            else
              match clean_and_unfavorite_items fetch (start + 1) fuel with
              | some rest => some ((fetch start).flatMap item_actions :: rest)
              | none => none := rfl
        rw [hunfold, if_neg (by simpa [List.isEmpty_iff] using h0),
          if_neg (by simpa [List.isEmpty_iff] using hact), hrec]
        have hmap : (List.range K).map
              (fun j => (fetch (start + 1 + j)).flatMap item_actions) =
            (List.range K).map
              (fun j => (fetch (start + (j + 1))).flatMap item_actions) := by
          refine List.map_congr_left ?_
          intro j _
          congr 2
          omega
        have hsplit : (List.range (K + 1)).map
              (fun j => (fetch (start + j)).flatMap item_actions) =
            (fetch (start + 0)).flatMap item_actions ::
              (List.range K).map
                (fun j => (fetch (start + (j + 1))).flatMap item_actions) := by
          rw [List.range_succ_eq_map]
          simp [List.map_map, Function.comp_def]
        rw [hmap, hsplit]
        simp

/-- C8: for every favorited item fetched, the cleanup pass issues exactly a
`tags_replace` action whose tag list is the item's tags with every
`'*'`-prefixed tag removed, followed by an `unfavorite` action; it keeps
fetching batches and terminates exactly when a fetch returns no flagged
records, having sent one such batch per non-empty fetch. -/
theorem clean_and_unfavorite_spec (fetch : Nat → List PocketItem)
    (K fuel : Nat) (hne : ∀ j, j < K → fetch j ≠ []) (hK : fetch K = [])
    (hfuel : K < fuel) :
    clean_and_unfavorite_items fetch 0 fuel =
      some ((List.range K).map (fun j => (fetch j).flatMap (fun it =>
        [PAction.tagsReplace it.item_id
            (joinWith "," (it.tags.filter (fun t => !(strStartsWith t "*")))),
          PAction.unfavorite it.item_id]))) := by
  have h := clean_loop_aux fetch K 0 fuel (by simpa using hne) (by simpa using hK)
    hfuel
  simpa [item_actions] using h

/-- A concrete fetch: one favorited item with a sentinel tag and a user
tag, then no flagged records. -/
def cleanFetchW : Nat → List PocketItem :=
  fun k => if k = 0 then [⟨"1", ["*auto", "keep"]⟩] else []

/-- Witness for `clean_and_unfavorite_spec` on `cleanFetchW`. -/
theorem clean_and_unfavorite_spec_witness :
    clean_and_unfavorite_items cleanFetchW 0 2 =
      some ((List.range 1).map (fun j => (cleanFetchW j).flatMap (fun it =>
        [PAction.tagsReplace it.item_id
            (joinWith "," (it.tags.filter (fun t => !(strStartsWith t "*")))),
          PAction.unfavorite it.item_id]))) :=
  clean_and_unfavorite_spec cleanFetchW 1 2
    (by intro j hj; interval_cases j; decide) (by decide) (by decide)

/-! ## Normalisation and the CSV store round trip (`format_item`,
`export_to_csv` writer vs `get_existing_items` reader) -/

/-- `clean_text`: remove null bytes (`text.replace('\x00', '')`) then
collapse whitespace runs to single spaces and strip the ends
(`' '.join(text.split())`). -/
def clean_text (s : String) : String :=
  String.mk (List.intercalate [' ']
    (((s.data.filter (fun c => c ≠ '\x00')).splitOnP
        (fun c => c.isWhitespace)).filter (fun w => w ≠ [])))

/-- Insert into a list sorted ascending by Python string comparison. -/
def insertSortedStr (x : String) : List String → List String
  | [] => [x]
  | y :: ys => if strLe x y then x :: y :: ys else y :: insertSortedStr x ys

/-- Python's `sorted` on a list of (distinct) tag names. -/
def sortStrings (l : List String) : List String := l.foldr insertSortedStr []

/-- A raw Pocket API item, with the fields `format_item` reads: each scalar
field present or absent (`item.get`), and the keys of the `tags` dict.
Present scalar values are strings in the API's JSON, so `str(v)` is the
identity on them. -/
structure RawItem where
  item_id : Option String
  resolved_id : Option String
  given_url : Option String
  given_title : Option String
  favorite : Option String
  status : Option String
  resolved_title : Option String
  resolved_url : Option String
  is_article : Option String
  has_video : Option String
  is_index : Option String
  word_count : Option String
  listen_duration_estimate : Option String
  time_added : Option String
  time_updated : Option String
  time_read : Option String
  time_favorited : Option String
  tags : List String
deriving DecidableEq, Repr

/-- `PocketExporter.format_item`: map a raw item onto the fixed 18-column
schema — defaults for absent fields (`''`, or `str(0) = "0"` for the time
columns with default `0`), `clean_text` on the two title fields, `'1'/'0'`
normalisation of the flag fields, and the sorted `';'`-joined tag keys. -/
def format_item (item : RawItem) : PRow :=
  ⟨item.item_id.getD "",
    item.resolved_id.getD "",
    item.given_url.getD "",
    clean_text (item.given_title.getD ""),
    if item.favorite = some "1" then "1" else "0",
    item.status.getD "",
    clean_text (item.resolved_title.getD ""),
    item.resolved_url.getD "",
    if item.is_article = some "1" then "1" else "0",
    if item.has_video = some "1" then "1" else "0",
    if item.is_index = some "1" then "1" else "0",
    item.word_count.getD "",
    item.listen_duration_estimate.getD "",
    item.time_added.getD "0",
    item.time_updated.getD "0",
    item.time_read.getD "",
    item.time_favorited.getD "",
    if item.tags.isEmpty then "" else joinWith ";" (sortStrings item.tags)⟩

/-- The Python csv writer's rendering of one character of a field value,
with `quoting=QUOTE_ALL`, `quotechar='"'`, default `doublequote=True` and
`escapechar='\\'`: a quote is doubled, the escape character is escaped by
itself, everything else is written literally (the field being quoted, the
delimiter needs no escape). -/
def escWriteChar (c : Char) : List Char :=
  if c = '\"' then ['\"', '\"']
  else if c = '\\' then ['\\', '\\']
  else [c]

/-- One CSV cell as the `csv.DictWriter` of `export_to_csv` writes it:
always quoted, content escaped by `escWriteChar`. -/
def encodeField (s : String) : String :=
  String.mk ('\"' :: (s.data.flatMap escWriteChar ++ ['\"']))

/-- Parsing of a quoted cell by the `csv.DictReader` of
`get_existing_items`, which configures `QUOTE_ALL` but no `escapechar`
(default `None`) and default `doublequote=True`: after the opening quote, a
doubled quote yields one quote, a single quote closes the field, and a
backslash is an ordinary character.  `none` on malformed content (which the
writer never produces). -/
def readQuotedContent : List Char → Option (List Char)
  | [] => none
  | ['\"'] => some []
  | '\"' :: '\"' :: rest => (readQuotedContent rest).map (fun t => '\"' :: t)
  | '\"' :: _ :: _ => none
  | c :: rest => (readQuotedContent rest).map (fun t => c :: t)

/-- Read one CSV cell back into a field value. -/
def decodeField (s : String) : Option String :=
  match s.data with
  | '\"' :: rest => (readQuotedContent rest).map String.mk
  | _ => none

/-- The net effect of write-then-read on one character: the writer's
escapechar handling doubles each backslash and the reader, having no
escapechar, keeps both copies. -/
def escDouble (c : Char) : List Char :=
  if c = '\\' then ['\\', '\\'] else [c]

theorem readQuotedContent_cons_ne {c : Char} (hc : c ≠ '\"')
    (rest : List Char) :
    readQuotedContent (c :: rest) =
      (readQuotedContent rest).map (fun t => c :: t) := by
  match rest with
  | [] => simp [readQuotedContent, hc]
  | c₂ :: rest₂ => simp [readQuotedContent, hc]

theorem readQuotedContent_encode (l : List Char) :
    readQuotedContent (l.flatMap escWriteChar ++ ['\"']) =
      some (l.flatMap escDouble) := by
  induction l with
  | nil => rfl
  | cons c t ih =>
      by_cases hq : c = '\"'
      · subst hq
        have hstep : (('\"' :: t).flatMap escWriteChar ++ ['\"']) =
            '\"' :: '\"' :: (t.flatMap escWriteChar ++ ['\"']) := by
          simp [escWriteChar]
        rw [hstep]
        rw [show readQuotedContent ('\"' :: '\"' ::
            (t.flatMap escWriteChar ++ ['\"'])) =
          (readQuotedContent (t.flatMap escWriteChar ++ ['\"'])).map
            (fun t => '\"' :: t) from rfl]
        rw [ih]
        simp [escDouble]
      · by_cases hb : c = '\\'
        · subst hb
          have hstep : (('\\' :: t).flatMap escWriteChar ++ ['\"']) =
              '\\' :: '\\' :: (t.flatMap escWriteChar ++ ['\"']) := by
            simp [escWriteChar]
          rw [hstep, readQuotedContent_cons_ne (by decide),
            readQuotedContent_cons_ne (by decide), ih]
          simp [escDouble]
        · have hstep : ((c :: t).flatMap escWriteChar ++ ['\"']) =
              c :: (t.flatMap escWriteChar ++ ['\"']) := by
            simp [escWriteChar, hq, hb]
          rw [hstep, readQuotedContent_cons_ne hq, ih]
          simp [escDouble, hb]

theorem decodeField_encodeField (s : String) :
    decodeField (encodeField s) =
      some (String.mk (s.data.flatMap escDouble)) := by
  show (readQuotedContent (s.data.flatMap escWriteChar ++ ['\"'])).map
      String.mk = _
  rw [readQuotedContent_encode]
  rfl

theorem flatMap_escDouble_of_no_backslash {l : List Char} (h : '\\' ∉ l) :
    l.flatMap escDouble = l := by
  induction l with
  | nil => rfl
  | cons c t ih =>
      simp only [List.mem_cons] at h
      push_neg at h
      simp [escDouble, Ne.symm h.1, ih h.2]

theorem decodeField_encodeField_of_no_backslash (s : String)
    (h : '\\' ∉ s.data) : decodeField (encodeField s) = some s := by
  rw [decodeField_encodeField, flatMap_escDouble_of_no_backslash h]

/-- One store row as written by the `csv.DictWriter`: the 18 cells in
header order, each encoded by `encodeField`. -/
def encodeRow (r : PRow) : List String :=
  [encodeField r.itemId, encodeField r.resolvedId, encodeField r.givenUrl,
    encodeField r.givenTitle, encodeField r.favorite, encodeField r.status,
    encodeField r.resolvedTitle, encodeField r.resolvedUrl,
    encodeField r.isArticle, encodeField r.hasVideo, encodeField r.isIndex,
    encodeField r.wordCount, encodeField r.listenDurationEstimate,
    encodeField r.timeAdded, encodeField r.timeUpdated, encodeField r.timeRead,
    encodeField r.timeFavorited, encodeField r.tags]

/-- Decode every cell of a data row, failing if any cell is malformed. -/
def decodeCells : List String → Option (List String)
  | [] => some []
  | c :: cs =>
      match decodeField c, decodeCells cs with
      | some f, some fs => some (f :: fs)
      | _, _ => none

/-- One store row as read back by the `csv.DictReader`: decode the 18 cells
in header order. -/
def decodeRow (cells : List String) : Option PRow :=
  match decodeCells cells with
  | some [f₁, f₂, f₃, f₄, f₅, f₆, f₇, f₈, f₉, f₁₀, f₁₁, f₁₂, f₁₃, f₁₄, f₁₅,
      f₁₆, f₁₇, f₁₈] =>
      some ⟨f₁, f₂, f₃, f₄, f₅, f₆, f₇, f₈, f₉, f₁₀, f₁₁, f₁₂, f₁₃, f₁₄, f₁₅,
        f₁₆, f₁₇, f₁₈⟩
  | _ => none

/-- The data rows of the store file as `export_to_csv` writes them. -/
def writeStore (rows : List PRow) : List (List String) := rows.map encodeRow

/-- Decode every data row of the file, failing if any row is malformed. -/
def decodeRows : List (List String) → Option (List PRow)
  | [] => some []
  | c :: cs =>
      match decodeRow c, decodeRows cs with
      | some r, some rs => some (r :: rs)
      | _, _ => none

/-- `get_existing_items` applied to a written file: decode every row and
key the resulting dictionary by the `Item ID` column. -/
def readStore (cells : List (List String)) : Option (List (String × PRow)) :=
  (decodeRows cells).map get_existing_items

/-- The 18 field values of a row, in header order. -/
def rowFields (r : PRow) : List String :=
  [r.itemId, r.resolvedId, r.givenUrl, r.givenTitle, r.favorite, r.status,
    r.resolvedTitle, r.resolvedUrl, r.isArticle, r.hasVideo, r.isIndex,
    r.wordCount, r.listenDurationEstimate, r.timeAdded, r.timeUpdated,
    r.timeRead, r.timeFavorited, r.tags]

theorem decodeRow_encodeRow (r : PRow)
    (h : ∀ f ∈ rowFields r, '\\' ∉ f.data) :
    decodeRow (encodeRow r) = some r := by
  obtain ⟨f₁, f₂, f₃, f₄, f₅, f₆, f₇, f₈, f₉, f₁₀, f₁₁, f₁₂, f₁₃, f₁₄, f₁₅,
    f₁₆, f₁₇, f₁₈⟩ := r
  simp only [rowFields, List.mem_cons, List.not_mem_nil, or_false] at h
  have hmapM : decodeCells (encodeRow ⟨f₁, f₂, f₃, f₄, f₅, f₆, f₇, f₈, f₉, f₁₀,
      f₁₁, f₁₂, f₁₃, f₁₄, f₁₅, f₁₆, f₁₇, f₁₈⟩) =
      some [f₁, f₂, f₃, f₄, f₅, f₆, f₇, f₈, f₉, f₁₀, f₁₁, f₁₂, f₁₃, f₁₄, f₁₅,
        f₁₆, f₁₇, f₁₈] := by
    simp [encodeRow, decodeCells,
      decodeField_encodeField_of_no_backslash _ (h f₁ (by simp)),
      decodeField_encodeField_of_no_backslash _ (h f₂ (by simp)),
      decodeField_encodeField_of_no_backslash _ (h f₃ (by simp)),
      decodeField_encodeField_of_no_backslash _ (h f₄ (by simp)),
      decodeField_encodeField_of_no_backslash _ (h f₅ (by simp)),
      decodeField_encodeField_of_no_backslash _ (h f₆ (by simp)),
      decodeField_encodeField_of_no_backslash _ (h f₇ (by simp)),
      decodeField_encodeField_of_no_backslash _ (h f₈ (by simp)),
      decodeField_encodeField_of_no_backslash _ (h f₉ (by simp)),
      decodeField_encodeField_of_no_backslash _ (h f₁₀ (by simp)),
      decodeField_encodeField_of_no_backslash _ (h f₁₁ (by simp)),
      decodeField_encodeField_of_no_backslash _ (h f₁₂ (by simp)),
      decodeField_encodeField_of_no_backslash _ (h f₁₃ (by simp)),
      decodeField_encodeField_of_no_backslash _ (h f₁₄ (by simp)),
      decodeField_encodeField_of_no_backslash _ (h f₁₅ (by simp)),
      decodeField_encodeField_of_no_backslash _ (h f₁₆ (by simp)),
      decodeField_encodeField_of_no_backslash _ (h f₁₇ (by simp)),
      decodeField_encodeField_of_no_backslash _ (h f₁₈ (by simp))]
  unfold decodeRow
  rw [hmapM]

/-- A raw item whose `given_url` contains a backslash. -/
def rawBackslash : RawItem :=
  ⟨some "1", none, some "a\\b", none, none, none, none, none, none, none,
    none, none, none, none, none, none, none, []⟩

/-- C9 counterexample: a normalized record whose URL contains a backslash
does not survive the write/read pair — the writer's `escapechar='\\'`
doubles the backslash, the reader (configured without an escapechar) keeps
both copies, so the read-back row differs from the normalized row. -/
theorem csv_round_trip_counterexample :
    (format_item rawBackslash).givenUrl = "a\\b" ∧
      readStore (writeStore [format_item rawBackslash]) ≠
        some [((format_item rawBackslash).itemId, format_item rawBackslash)] := by
  constructor
  · rfl
  · decide

/-- C9 amended: for raw items whose normalized field values contain no
backslash (the writer's escape character), normalizing then writing and
reading back through the CSV store recovers exactly the normalized row,
keyed by its `Item ID`. -/
theorem csv_round_trip_of_no_backslash (item : RawItem)
    (h : ∀ f ∈ rowFields (format_item item), '\\' ∉ f.data) :
    readStore (writeStore [format_item item]) =
      some [((format_item item).itemId, format_item item)] := by
  unfold readStore writeStore
  rw [List.map_cons, List.map_nil]
  have hrows : decodeRows [encodeRow (format_item item)] =
      some [format_item item] := by
    simp [decodeRows, decodeRow_encodeRow _ h]
  rw [hrows]
  rfl

/-- A concrete raw item exercising defaults, flag normalisation, text
cleanup, quotes in a field and tag sorting. -/
def rawClean : RawItem :=
  ⟨some "7", some "8", some "http://e.com/x?y=1", some "Hello  world",
    some "1", some "0", some "He said \"hi\"", some "http://e.com/x",
    some "1", some "0", some "0", some "123", some "45", some "111",
    some "222", some "", none, ["beta", "alpha"]⟩

/-- Witness for `csv_round_trip_of_no_backslash` at `rawClean`. -/
theorem csv_round_trip_of_no_backslash_witness :
    readStore (writeStore [format_item rawClean]) =
      some [((format_item rawClean).itemId, format_item rawClean)] :=
  csv_round_trip_of_no_backslash rawClean (by decide)

/-! ## YouTube metadata fetch (`yt_history_fetch_metadata.py`) -/

/-- One video's metadata row, with the 12 columns `_get_video_metadata`
builds and `process_history` writes. -/
structure VideoMeta where
  videoId : String
  duration : String
  publishedAt : String
  title : String
  channelId : String
  channelTitle : String
  categoryId : String
  definition : String
  viewCount : String
  likeCount : String
  commentCount : String
  favoriteCount : String
deriving DecidableEq, Repr

/-- `YouTubeMetadataFetcher._get_video_metadata`: every successfully
fetched item is appended to the results and written into the in-memory
cache keyed by its id (`self.metadata_cache[item['id']] = metadata`).
Batching into groups of 50 and the skipping of failed batches only
determine which items `fetched` holds. -/
def get_video_metadata (fetched : List VideoMeta)
    (cache : List (String × VideoMeta)) :
    List VideoMeta × List (String × VideoMeta) :=
  (fetched, mergeByKey VideoMeta.videoId cache fetched)

/-- The persistent state `process_history` touches: the pickled metadata
cache and the rows of the output CSV (absent when the file does not
exist). -/
structure YtState where
  cache : List (String × VideoMeta)
  output : Option (List VideoMeta)
deriving DecidableEq, Repr

/-- The history ids needing metadata:
`video_ids - existing_metadata - set(self.metadata_cache.keys())`. -/
def yt_new_videos (historyIds : List String) (s : YtState) : List String :=
  historyIds.filter (fun v =>
    ¬ v ∈ (match s.output with
      | some rows => rows.map VideoMeta.videoId
      | none => []) ∧ ¬ v ∈ dictKeys s.cache)

/-- `YouTubeMetadataFetcher.process_history`: compute the new videos; when
there are any, fetch their metadata (the API responses being `fetched`),
which also enters them into the cache, and rewrite the output CSV from
scratch with exactly the cache's values
(`all_metadata = list(self.metadata_cache.values())`); otherwise leave
cache and output file unchanged. -/
def process_history (historyIds : List String) (fetched : List VideoMeta)
    (s : YtState) : YtState :=
  if (yt_new_videos historyIds s).isEmpty then s
  else
    ⟨(get_video_metadata fetched s.cache).2,
      some ((get_video_metadata fetched s.cache).2.map Prod.snd)⟩

/-- C10: when `process_history` fetches any new videos, the rewritten
output CSV holds exactly the rows of the metadata cache as it stands after
the fetch — not a merge with the prior file: a row `r` of the preexisting
output whose videoId is not a key of the updated cache does not appear in
the rewritten file. -/
theorem process_history_output_is_cache (historyIds : List String)
    (fetched : List VideoMeta) (s : YtState) (rows : List VideoMeta)
    (r : VideoMeta) (hkeyed : keyedBy VideoMeta.videoId s.cache)
    (hnew : (yt_new_videos historyIds s).isEmpty = false)
    (_hrows : s.output = some rows) (_hr : r ∈ rows)
    (hnk : r.videoId ∉ dictKeys (process_history historyIds fetched s).cache) :
    (process_history historyIds fetched s).output =
      some ((process_history historyIds fetched s).cache.map Prod.snd) ∧
    r ∉ (process_history historyIds fetched s).cache.map Prod.snd := by
  have hne : ¬ (yt_new_videos historyIds s).isEmpty = true := by
    rw [hnew]
    exact Bool.false_ne_true
  constructor
  · simp only [process_history, if_neg hne]
  · intro hmem
    simp only [process_history, if_neg hne, get_video_metadata] at hmem hnk
    obtain ⟨p, hp, hpr⟩ := List.mem_map.mp hmem
    have hkeyed' : keyedBy VideoMeta.videoId
        (mergeByKey VideoMeta.videoId s.cache fetched) :=
      keyedBy_mergeByKey _ hkeyed fetched
    apply hnk
    rw [← hpr, ← hkeyed' p hp]
    exact List.mem_map_of_mem Prod.fst hp

/-- A metadata row with the given id and empty statistics. -/
def mkMeta (id : String) : VideoMeta :=
  ⟨id, "", "", "", "", "", "", "", "", "", "", ""⟩

/-- A prior state: video `a` cached, the output CSV holding a row for
video `b` that is in neither the cache nor the new history. -/
def ytS₀ : YtState := ⟨[("a", mkMeta "a")], some [mkMeta "b"]⟩

/-- Witness for `process_history_output_is_cache`: fetching the new video
`c` rewrites the output to the cache contents `a, c`, dropping the prior
row `b`. -/
theorem process_history_output_is_cache_witness :
    (process_history ["c"] [mkMeta "c"] ytS₀).output =
      some ((process_history ["c"] [mkMeta "c"] ytS₀).cache.map Prod.snd) ∧
    mkMeta "b" ∉ (process_history ["c"] [mkMeta "c"] ytS₀).cache.map Prod.snd :=
  process_history_output_is_cache ["c"] [mkMeta "c"] ytS₀ [mkMeta "b"]
    (mkMeta "b") (by unfold keyedBy; decide) (by decide) (by decide) (by decide)
    (by decide)

end DataAutomation
